import Mathlib

/-!
Verification of the AIRism attack-evaluation notebooks.

The repository consists of three linear pandas/sklearn notebooks:

* `R2_Evaluation_Table.ipynb` — feature engineering (`preprocess`), a
  regression evaluation pipeline over model adapters, and a sorted summary
  table (`results_df`);
* `F1_Evaluvtion_Table.ipynb` — the same feature engineering inline, a
  classification pipeline with a class-diversity guard, confusion-matrix
  collection and a metrics table (`metrics_df`);
* `data_manipulation_attack.ipynb` — the same feature engineering and trust
  score computation for a single scenario.

All numeric columns are embedded as rational numbers (`ℚ`): the decimal
literals of the source (`0.2`, `0.85`, …) denote exact rationals here, and
Python's float division is modelled by exact division.  DataFrames are
embedded column-major as association lists from column name to value list,
matching pandas' columnwise assignment semantics.
-/

namespace AIRism

/-- One telemetry row: the raw per-drone fields read from the scenario CSVs
(§3 of the spec; columns referenced by the feature-engineering block). -/
structure TelemetryRow where
  batteryLevel : ℚ
  communicationIntensity : ℚ
  communicationScale : ℚ
  latency : ℚ
  packetLoss : ℚ
  sensorFunctionality : ℚ
  closenessCentrality : ℚ
  eigenvectorCentrality : ℚ
  relativeSpeed : ℚ
  locationAccuracy : ℚ
  swarmCoordinationRate : ℚ
  deriving DecidableEq

/-- `df["Battery Level Norm"] = df["Battery Level"] / 100`, read per row. -/
def batteryLevelNorm (r : TelemetryRow) : ℚ := r.batteryLevel / 100

/-- `df["Scale-Intensity Centrality"] = df["Communication Intensity"] *
df["Communication Scale"]`, read per row. -/
def scaleIntensityCentrality (r : TelemetryRow) : ℚ :=
  r.communicationIntensity * r.communicationScale

/-- The Trust Score formula of `preprocess` (R2 notebook lines 37-45, and
identically in the F1 and data-manipulation notebooks), read per row. -/
def trustScore (r : TelemetryRow) : ℚ :=
  0.2 * (1 - r.latency) +
  0.1 * (1 - r.packetLoss) +
  0.2 * r.sensorFunctionality +
  0.1 * batteryLevelNorm r +
  0.2 * scaleIntensityCentrality r +
  0.1 * r.closenessCentrality +
  0.1 * r.eigenvectorCentrality

/-- The seven Trust Score weights, in the order they appear in the source
expression. -/
def trustWeights : List ℚ := [0.2, 0.1, 0.2, 0.1, 0.2, 0.1, 0.1]

/-- The seven weighted signals, in the order matching `trustWeights`. -/
def trustSignals (r : TelemetryRow) : List ℚ :=
  [1 - r.latency, 1 - r.packetLoss, r.sensorFunctionality,
   batteryLevelNorm r, scaleIntensityCentrality r,
   r.closenessCentrality, r.eigenvectorCentrality]

/-- C1: for every telemetry row whose raw fields Latency, Packet Loss,
Sensor Functionality, Closeness Centrality, Eigenvector Centrality,
Communication Intensity and Communication Scale are each in [0,1] and whose
Battery Level is in [0,100], the derived Battery Level Norm lies in [0,1]
and the derived Trust Score lies in [0,1]. -/
theorem trustScore_bounds (r : TelemetryRow)
    (hL0 : 0 ≤ r.latency) (hL1 : r.latency ≤ 1)
    (hP0 : 0 ≤ r.packetLoss) (hP1 : r.packetLoss ≤ 1)
    (hS0 : 0 ≤ r.sensorFunctionality) (hS1 : r.sensorFunctionality ≤ 1)
    (hC0 : 0 ≤ r.closenessCentrality) (hC1 : r.closenessCentrality ≤ 1)
    (hE0 : 0 ≤ r.eigenvectorCentrality) (hE1 : r.eigenvectorCentrality ≤ 1)
    (hI0 : 0 ≤ r.communicationIntensity) (hI1 : r.communicationIntensity ≤ 1)
    (hK0 : 0 ≤ r.communicationScale) (hK1 : r.communicationScale ≤ 1)
    (hB0 : 0 ≤ r.batteryLevel) (hB1 : r.batteryLevel ≤ 100) :
    (0 ≤ batteryLevelNorm r ∧ batteryLevelNorm r ≤ 1) ∧
      (0 ≤ trustScore r ∧ trustScore r ≤ 1) := by
  have hbn0 : 0 ≤ batteryLevelNorm r := by
    unfold batteryLevelNorm; positivity
  have hbn1 : batteryLevelNorm r ≤ 1 := by
    unfold batteryLevelNorm
    rw [div_le_one (by norm_num : (0:ℚ) < 100)]
    exact hB1
  have hsic0 : 0 ≤ scaleIntensityCentrality r :=
    mul_nonneg hI0 hK0
  have hsic1 : scaleIntensityCentrality r ≤ 1 :=
    mul_le_one₀ hI1 hK0 hK1
  refine ⟨⟨hbn0, hbn1⟩, ?_, ?_⟩ <;> (unfold trustScore; nlinarith)

/-- Concrete witness for `trustScore_bounds`: a fully healthy drone row. -/
def rowMax : TelemetryRow :=
  { batteryLevel := 100, communicationIntensity := 1, communicationScale := 1,
    latency := 0, packetLoss := 0, sensorFunctionality := 1,
    closenessCentrality := 1, eigenvectorCentrality := 1,
    relativeSpeed := 0, locationAccuracy := 1, swarmCoordinationRate := 1 }

theorem trustScore_bounds_witness :
    (0 ≤ rowMax.latency ∧ rowMax.batteryLevel ≤ 100) ∧
      ((0 ≤ batteryLevelNorm rowMax ∧ batteryLevelNorm rowMax ≤ 1) ∧
        (0 ≤ trustScore rowMax ∧ trustScore rowMax ≤ 1)) :=
  ⟨⟨by norm_num [rowMax], by norm_num [rowMax]⟩,
    trustScore_bounds rowMax (by norm_num [rowMax]) (by norm_num [rowMax])
      (by norm_num [rowMax]) (by norm_num [rowMax]) (by norm_num [rowMax])
      (by norm_num [rowMax]) (by norm_num [rowMax]) (by norm_num [rowMax])
      (by norm_num [rowMax]) (by norm_num [rowMax]) (by norm_num [rowMax])
      (by norm_num [rowMax]) (by norm_num [rowMax]) (by norm_num [rowMax])
      (by norm_num [rowMax]) (by norm_num [rowMax])⟩

/-- C2: the seven Trust Score weights are exactly the constants
0.2, 0.1, 0.2, 0.1, 0.2, 0.1, 0.1, their sum is exactly 1, and the Trust
Score of every row is the corresponding weighted sum of the seven signals —
a property of the constant table itself, independent of any input data. -/
theorem trustWeights_spec :
    trustWeights = [0.2, 0.1, 0.2, 0.1, 0.2, 0.1, 0.1] ∧
      trustWeights.sum = 1 ∧
      ∀ r : TelemetryRow,
        trustScore r =
          ((trustWeights.zip (trustSignals r)).map (fun p => p.1 * p.2)).sum := by
  refine ⟨rfl, by norm_num [trustWeights], fun r => ?_⟩
  simp only [trustWeights, trustSignals, List.zip, List.zipWith, List.map,
    List.sum_cons, List.sum_nil, trustScore]
  ring

/-! ### Classification pipeline (`F1_Evaluvtion_Table.ipynb`) -/

/-- Binarization at threshold 0.85: `(v >= 0.85).astype(int)`, applied to the
ground truth (line 72) and to each prediction vector (line 96). -/
def binarize (xs : List ℚ) : List ℕ :=
  xs.map (fun v => if (0.85:ℚ) ≤ v then 1 else 0)

/-- `len(np.unique(ys))`: the number of distinct values of a list. -/
def numClasses (ys : List ℕ) : ℕ := ys.dedup.length

/-- The raveled confusion matrix with `labels=[0, 1]`:
`tn, fp, fn, tp = confusion_matrix(y_binary, y_pred, labels=[0,1]).ravel()`. -/
structure ConfMatrix where
  tn : ℕ
  fp : ℕ
  fn : ℕ
  tp : ℕ
  deriving DecidableEq

/-- Number of index-aligned pairs whose true label is `t` and predicted label
is `p` (one cell of the confusion matrix). -/
def countPairs (t p : ℕ) (ys ps : List ℕ) : ℕ :=
  (ys.zip ps).countP (fun q => q.1 == t && q.2 == p)

/-- `sklearn.metrics.confusion_matrix(ys, ps, labels=[0,1])`, raveled. -/
def confusionMatrix (ys ps : List ℕ) : ConfMatrix :=
  { tn := countPairs 0 0 ys ps, fp := countPairs 0 1 ys ps,
    fn := countPairs 1 0 ys ps, tp := countPairs 1 1 ys ps }

/-- `precision = tp / (tp + fp) if (tp + fp) > 0 else 0.0` (line 106).  The
guard is embedded as written; the function is total, so no arithmetic error
can arise. -/
def precision (cm : ConfMatrix) : ℚ :=
  if cm.tp + cm.fp > 0 then (cm.tp : ℚ) / ((cm.tp : ℚ) + cm.fp) else 0.0

/-- `recall = tp / (tp + fn) if (tp + fn) > 0 else 0.0` (line 107; named
`recallScore` here because `recall` is reserved). -/
def recallScore (cm : ConfMatrix) : ℚ :=
  if cm.tp + cm.fn > 0 then (cm.tp : ℚ) / ((cm.tp : ℚ) + cm.fn) else 0.0

/-- `f1 = 2*(precision*recall)/(precision+recall) if (precision+recall) > 0
else 0.0` (line 108). -/
def f1score (cm : ConfMatrix) : ℚ :=
  if precision cm + recallScore cm > 0 then
    2 * (precision cm * recallScore cm) / (precision cm + recallScore cm)
  else 0.0

/-- `accuracy = (tp + tn) / (tp + tn + fp + fn)` (line 109) — unguarded. -/
def accuracy (cm : ConfMatrix) : ℚ :=
  ((cm.tp : ℚ) + cm.tn) / ((cm.tp : ℚ) + cm.tn + cm.fp + cm.fn)

/-- A model adapter `fit(X_train, y_train) -> predict(X_all)`, as the three
model functions `model_rf`, `model_svm`, `model_cnn` are used: fitted on the
training split, then asked for a prediction per row of its third argument.
Feature matrices are column-major (one list per feature). -/
def ModelAdapter : Type :=
  List (List ℚ) → List ℚ → List (List ℚ) → List ℚ

/-- Smallest element of a column (0 for the empty column). -/
def listMin : List ℚ → ℚ
  | [] => 0
  | h :: t => t.foldl min h

/-- Largest element of a column (0 for the empty column). -/
def listMax : List ℚ → ℚ
  | [] => 0
  | h :: t => t.foldl max h

/-- `MinMaxScaler().fit_transform`, per feature column:
`(x - min) / (max - min)`.  A constant column maps to 0, as in sklearn
(there via a unit divisor, here because division by zero is zero in `ℚ`). -/
def minMaxScale (x : List (List ℚ)) : List (List ℚ) :=
  x.map (fun c => c.map (fun v => (v - listMin c) / (listMax c - listMin c)))

/-- Row selection `xs[idx]` for a positional index list (the shuffled
training indices chosen by `train_test_split(..., random_state=42)` are
modelled as an explicit index list). -/
def select {α : Type} (xs : List α) (idx : List ℕ) : List α :=
  idx.filterMap (fun i => xs.get? i)

/-- The full-data prediction vector a model produces inside the
classification loop: fitted on the scaled training rows and the binarized
training labels, predicting over all scaled rows (`X_scaled`). -/
def clsPreds (f : ModelAdapter) (x : List (List ℚ)) (y : List ℚ)
    (idx : List ℕ) : List ℚ :=
  let xScaled := minMaxScale x
  f (xScaled.map (fun c => select c idx))
    ((select (binarize y) idx).map (fun n => (n : ℚ))) xScaled

/-- One entry of `conf_data`: `(attack, model_name, cm)`. -/
structure ConfRecord where
  attack : String
  model : String
  cm : ConfMatrix
  deriving DecidableEq

/-- The loop body of the confusion-matrix collection (lines 54-98) for one
scenario: binarize the ground truth, skip the scenario (with a printed note)
when it has fewer than two distinct classes, otherwise collect one confusion
matrix per model over full-data predictions binarized at 0.85.  The first
component is the list of skip notes printed, the second the `conf_data`
entries appended. -/
def evaluateCls (attack : String) (models : List (String × ModelAdapter))
    (x : List (List ℚ)) (y : List ℚ) (idx : List ℕ) :
    List String × List ConfRecord :=
  let yBin := binarize y
  if numClasses yBin < 2 then
    (["Skipping " ++ attack ++ ": insufficient class diversity"], [])
  else
    ([], models.map (fun m =>
      { attack := attack, model := m.1,
        cm := confusionMatrix yBin (binarize (clsPreds m.2 x y idx)) }))

/-- The four cells of the confusion matrix partition the zipped label/
prediction pairs whenever every label on both sides is 0 or 1. -/
theorem countPairs_partition (l : List (ℕ × ℕ))
    (h : ∀ q ∈ l, (q.1 = 0 ∨ q.1 = 1) ∧ (q.2 = 0 ∨ q.2 = 1)) :
    l.countP (fun q => q.1 == 0 && q.2 == 0) +
      l.countP (fun q => q.1 == 0 && q.2 == 1) +
      l.countP (fun q => q.1 == 1 && q.2 == 0) +
      l.countP (fun q => q.1 == 1 && q.2 == 1) = l.length := by
  induction l with
  | nil => simp
  | cons q t ih =>
      have hq := h q (List.mem_cons_self q t)
      have ht : ∀ p ∈ t, (p.1 = 0 ∨ p.1 = 1) ∧ (p.2 = 0 ∨ p.2 = 1) :=
        fun p hp => h p (List.mem_cons_of_mem q hp)
      have ih2 := ih ht
      simp only [List.countP_cons, List.length_cons]
      rcases hq.1 with h1 | h1 <;> rcases hq.2 with h2 | h2 <;>
        simp [h1, h2] <;> omega

/-- Every entry of a binarized vector is 0 or 1. -/
theorem binarize_mem_zero_one (xs : List ℚ) :
    ∀ v ∈ binarize xs, v = 0 ∨ v = 1 := by
  intro v hv
  simp only [binarize, List.mem_map] at hv
  obtain ⟨q, -, hq⟩ := hv
  by_cases h : (0.85:ℚ) ≤ q <;> simp [h] at hq <;> omega

/-- For two binarized vectors of equal length, the confusion-matrix cells
sum to that length. -/
theorem confusionMatrix_counts_sum (ys ps : List ℚ)
    (hlen : ps.length = ys.length) :
    (confusionMatrix (binarize ys) (binarize ps)).tn +
      (confusionMatrix (binarize ys) (binarize ps)).fp +
      (confusionMatrix (binarize ys) (binarize ps)).fn +
      (confusionMatrix (binarize ys) (binarize ps)).tp = ys.length := by
  have hzip : ((binarize ys).zip (binarize ps)).length = ys.length := by
    simp [List.length_zip, binarize, hlen]
  have hmem : ∀ q ∈ (binarize ys).zip (binarize ps),
      (q.1 = 0 ∨ q.1 = 1) ∧ (q.2 = 0 ∨ q.2 = 1) := by
    intro q hq
    have h1 := List.of_mem_zip hq
    exact ⟨binarize_mem_zero_one ys q.1 h1.1, binarize_mem_zero_one ps q.2 h1.2⟩
  have h := countPairs_partition ((binarize ys).zip (binarize ps)) hmem
  simp only [confusionMatrix, countPairs]
  omega

/-- C4: precision is exactly 0 when `tp + fp = 0`, recall is exactly 0 when
`tp + fn = 0`, F1 is exactly 0 when `precision + recall = 0`, and — the
metric functions being total — no arithmetic error can arise. -/
theorem zero_denominator_metrics (cm : ConfMatrix) :
    (cm.tp + cm.fp = 0 → precision cm = 0) ∧
      (cm.tp + cm.fn = 0 → recallScore cm = 0) ∧
      (precision cm + recallScore cm = 0 → f1score cm = 0) := by
  refine ⟨fun h => ?_, fun h => ?_, fun h => ?_⟩
  · norm_num [precision, h]
  · norm_num [recallScore, h]
  · norm_num [f1score, h]

/-- The all-zero confusion matrix satisfies all three zero-denominator
hypotheses; `zero_denominator_metrics` applies there. -/
theorem zero_denominator_metrics_witness :
    ((ConfMatrix.mk 0 0 0 0).tp + (ConfMatrix.mk 0 0 0 0).fp = 0 ∧
        (ConfMatrix.mk 0 0 0 0).tp + (ConfMatrix.mk 0 0 0 0).fn = 0 ∧
        precision (ConfMatrix.mk 0 0 0 0) + recallScore (ConfMatrix.mk 0 0 0 0) = 0) ∧
      (precision (ConfMatrix.mk 0 0 0 0) = 0 ∧
        recallScore (ConfMatrix.mk 0 0 0 0) = 0 ∧
        f1score (ConfMatrix.mk 0 0 0 0) = 0) :=
  ⟨⟨rfl, rfl, by norm_num [precision, recallScore]⟩,
    (zero_denominator_metrics (ConfMatrix.mk 0 0 0 0)).1 rfl,
    (zero_denominator_metrics (ConfMatrix.mk 0 0 0 0)).2.1 rfl,
    (zero_denominator_metrics (ConfMatrix.mk 0 0 0 0)).2.2
      (by norm_num [precision, recallScore])⟩

/-- C5: a scenario whose binarized ground truth has fewer than two distinct
classes yields no `conf_data` entry, and the skip is reported by a printed
note naming the scenario. -/
theorem degenerate_scenario_skipped (attack : String)
    (models : List (String × ModelAdapter)) (x : List (List ℚ)) (y : List ℚ)
    (idx : List ℕ) (h : numClasses (binarize y) < 2) :
    (evaluateCls attack models x y idx).1 =
        ["Skipping " ++ attack ++ ": insufficient class diversity"] ∧
      (evaluateCls attack models x y idx).2 = [] := by
  unfold evaluateCls
  rw [if_pos h]
  exact ⟨rfl, rfl⟩

/-- Witness data for the classification claims: a single one-feature,
two-row scenario and one constant model adapter. -/
def wAdapter : ModelAdapter := fun _ _ xall => (xall.headD []).map (fun _ => (0.9:ℚ))

def wModels : List (String × ModelAdapter) := [("Random Forest", wAdapter)]

def wX : List (List ℚ) := [[0, 1]]

def wY : List ℚ := [0.9, 0.5]

def wIdx : List ℕ := [0]

/-- A degenerate scenario: both coordination rates at least 0.85, so the
binarized truth has a single class. -/
def wYdeg : List ℚ := [0.9, 0.9]

theorem binarize_wYdeg : binarize wYdeg = [1, 1] := by
  norm_num [binarize, wYdeg]

theorem numClasses_wYdeg : numClasses (binarize wYdeg) < 2 := by
  rw [binarize_wYdeg]
  decide

theorem degenerate_scenario_skipped_witness :
    numClasses (binarize wYdeg) < 2 ∧
      ((evaluateCls "Sybil Attack" wModels wX wYdeg wIdx).1 =
          ["Skipping Sybil Attack: insufficient class diversity"] ∧
        (evaluateCls "Sybil Attack" wModels wX wYdeg wIdx).2 = []) :=
  ⟨numClasses_wYdeg,
    degenerate_scenario_skipped "Sybil Attack" wModels wX wYdeg wIdx
      numClasses_wYdeg⟩

/-- C3: whenever the classification pipeline emits a record (which happens
exactly when the binarized ground truth has two distinct classes), its
confusion-matrix cells sum to the scenario row count, and the reported
accuracy is exactly `(tp + tn) / (tp + tn + fp + fn)`. -/
theorem cls_counts_and_accuracy (attack : String)
    (models : List (String × ModelAdapter)) (x : List (List ℚ)) (y : List ℚ)
    (idx : List ℕ)
    (hlen : ∀ m ∈ models, (clsPreds m.2 x y idx).length = y.length) :
    ∀ rec ∈ (evaluateCls attack models x y idx).2,
      rec.cm.tn + rec.cm.fp + rec.cm.fn + rec.cm.tp = y.length ∧
        accuracy rec.cm =
          ((rec.cm.tp : ℚ) + rec.cm.tn) /
            ((rec.cm.tp : ℚ) + rec.cm.tn + rec.cm.fp + rec.cm.fn) := by
  intro rec hrec
  unfold evaluateCls at hrec
  by_cases hguard : numClasses (binarize y) < 2
  · rw [if_pos hguard] at hrec
    simp at hrec
  · rw [if_neg hguard] at hrec
    simp only [List.mem_map] at hrec
    obtain ⟨m, hm, rfl⟩ := hrec
    dsimp only
    refine ⟨?_, rfl⟩
    have h := confusionMatrix_counts_sum y (clsPreds m.2 x y idx) (hlen m hm)
    omega

/-- The concrete record the classification pipeline emits on the witness
scenario. -/
def wRec : ConfRecord :=
  { attack := "MITM Attack", model := "Random Forest",
    cm := confusionMatrix (binarize wY) (binarize (clsPreds wAdapter wX wY wIdx)) }

theorem clsPreds_w : clsPreds wAdapter wX wY wIdx = [0.9, 0.9] := by
  unfold clsPreds wAdapter
  norm_num [minMaxScale, wX, listMin, listMax, min_def, max_def]

theorem clsPreds_len_w : (clsPreds wAdapter wX wY wIdx).length = wY.length := by
  rw [clsPreds_w]
  rfl

theorem hlen_w :
    ∀ m ∈ wModels, (clsPreds m.2 wX wY wIdx).length = wY.length := by
  intro m hm
  have hw : m = ("Random Forest", wAdapter) := by
    simpa [wModels] using hm
  rw [hw]
  exact clsPreds_len_w

theorem binarize_wY : binarize wY = [1, 0] := by
  norm_num [binarize, wY]

theorem evaluateCls_w :
    evaluateCls "MITM Attack" wModels wX wY wIdx = ([], [wRec]) := by
  unfold evaluateCls
  rw [if_neg (by rw [binarize_wY]; decide)]
  rfl

theorem wRec_mem : wRec ∈ (evaluateCls "MITM Attack" wModels wX wY wIdx).2 := by
  rw [evaluateCls_w]
  exact List.mem_singleton.mpr rfl

theorem cls_counts_and_accuracy_witness :
    ((clsPreds wAdapter wX wY wIdx).length = wY.length ∧
        wRec ∈ (evaluateCls "MITM Attack" wModels wX wY wIdx).2) ∧
      (wRec.cm.tn + wRec.cm.fp + wRec.cm.fn + wRec.cm.tp = wY.length ∧
        accuracy wRec.cm =
          ((wRec.cm.tp : ℚ) + wRec.cm.tn) /
            ((wRec.cm.tp : ℚ) + wRec.cm.tn + wRec.cm.fp + wRec.cm.fn)) :=
  ⟨⟨clsPreds_len_w, wRec_mem⟩,
    cls_counts_and_accuracy "MITM Attack" wModels wX wY wIdx hlen_w wRec wRec_mem⟩

/-- C10: every emitted classification record passed the two-class guard, so
the scenario has at least two rows, the accuracy denominator
`tp + tn + fp + fn` equals the row count, and the unguarded division in
`accuracy` never divides by zero. -/
theorem accuracy_denominator_pos (attack : String)
    (models : List (String × ModelAdapter)) (x : List (List ℚ)) (y : List ℚ)
    (idx : List ℕ)
    (hlen : ∀ m ∈ models, (clsPreds m.2 x y idx).length = y.length) :
    ∀ rec ∈ (evaluateCls attack models x y idx).2,
      rec.cm.tp + rec.cm.tn + rec.cm.fp + rec.cm.fn = y.length ∧
        2 ≤ y.length ∧
        ((rec.cm.tp : ℚ) + rec.cm.tn + rec.cm.fp + rec.cm.fn) ≠ 0 := by
  intro rec hrec
  unfold evaluateCls at hrec
  by_cases hguard : numClasses (binarize y) < 2
  · rw [if_pos hguard] at hrec
    simp at hrec
  · rw [if_neg hguard] at hrec
    simp only [List.mem_map] at hrec
    obtain ⟨m, hm, rfl⟩ := hrec
    dsimp only
    have hsum := confusionMatrix_counts_sum y (clsPreds m.2 x y idx) (hlen m hm)
    have hdedup : (binarize y).dedup.length ≤ (binarize y).length :=
      ((binarize y).dedup_sublist).length_le
    have hblen : (binarize y).length = y.length := by simp [binarize]
    have hrows : 2 ≤ y.length := by
      unfold numClasses at hguard
      omega
    have hnat :
        (confusionMatrix (binarize y) (binarize (clsPreds m.2 x y idx))).tp +
            (confusionMatrix (binarize y) (binarize (clsPreds m.2 x y idx))).tn +
            (confusionMatrix (binarize y) (binarize (clsPreds m.2 x y idx))).fp +
            (confusionMatrix (binarize y) (binarize (clsPreds m.2 x y idx))).fn =
          y.length := by omega
    refine ⟨hnat, hrows, ?_⟩
    calc ((confusionMatrix (binarize y) (binarize (clsPreds m.2 x y idx))).tp : ℚ) +
            (confusionMatrix (binarize y) (binarize (clsPreds m.2 x y idx))).tn +
            (confusionMatrix (binarize y) (binarize (clsPreds m.2 x y idx))).fp +
            (confusionMatrix (binarize y) (binarize (clsPreds m.2 x y idx))).fn
        = ((y.length : ℕ) : ℚ) := by exact_mod_cast hnat
      _ ≠ 0 := Nat.cast_ne_zero.mpr (by omega)

theorem accuracy_denominator_pos_witness :
    ((clsPreds wAdapter wX wY wIdx).length = wY.length ∧
        wRec ∈ (evaluateCls "MITM Attack" wModels wX wY wIdx).2) ∧
      (wRec.cm.tp + wRec.cm.tn + wRec.cm.fp + wRec.cm.fn = wY.length ∧
        2 ≤ wY.length ∧
        ((wRec.cm.tp : ℚ) + wRec.cm.tn + wRec.cm.fp + wRec.cm.fn) ≠ 0) :=
  ⟨⟨clsPreds_len_w, wRec_mem⟩,
    accuracy_denominator_pos "MITM Attack" wModels wX wY wIdx hlen_w wRec wRec_mem⟩

/-! ### Regression pipeline (`R2_Evaluation_Table.ipynb`) -/

/-- `mean_absolute_error(y, preds)` over index-aligned vectors. -/
def maeQ (y p : List ℚ) : ℚ :=
  ((y.zip p).map (fun q => |q.1 - q.2|)).sum / y.length

/-- `mean_squared_error(y, preds)` (the `squared=True` value).  The source
reports `RMSE = mean_squared_error(y, preds, squared=False)`, i.e. the square
root of this quantity; the square root of a rational is irrational in
general, so the squared value is recorded and the reported RMSE is the real
square root of it. -/
def mseQ (y p : List ℚ) : ℚ :=
  ((y.zip p).map (fun q => (q.1 - q.2) ^ 2)).sum / y.length

/-- Mean of a target vector (used by `r2_score`). -/
def meanQ (y : List ℚ) : ℚ := y.sum / y.length

/-- `r2_score(y, preds) = 1 - SSres / SStot`. -/
def r2Q (y p : List ℚ) : ℚ :=
  1 - ((y.zip p).map (fun q => (q.1 - q.2) ^ 2)).sum /
      (y.map (fun v => (v - meanQ y) ^ 2)).sum

/-- `round(q, d)`: rounding to `d` decimal digits.  Python rounds halves to
even on floats; exact halves never matter to any claim here, so the nearest
rational (halves up) is used. -/
def roundTo (d : ℕ) (q : ℚ) : ℚ := (round (q * 10 ^ d) : ℚ) / 10 ^ d

/-- One row appended to `summary` (R2 notebook lines 99-105): scenario name,
model name, `MAE` rounded to 6 digits, the mean squared error underlying the
reported `RMSE`, and `R2 Score` rounded to 4 digits. -/
structure RegRecord where
  attack : String
  model : String
  mae : ℚ
  mse : ℚ
  r2 : ℚ
  deriving DecidableEq

def mkRegRecord (attack nm : String) (y preds : List ℚ) : RegRecord :=
  { attack := attack, model := nm, mae := roundTo 6 (maeQ y preds),
    mse := mseQ y preds, r2 := roundTo 4 (r2Q y preds) }

/-- The per-scenario regression evaluation loop (lines 77-105): scale the
feature matrix, split off the training rows, fit each model on the training
split and take its predictions over all scaled rows, then record metrics of
those predictions against the full target vector. -/
def evaluateReg (attack : String) (models : List (String × ModelAdapter))
    (x : List (List ℚ)) (y : List ℚ) (idx : List ℕ) : List RegRecord :=
  let xScaled := minMaxScale x
  let xTrain := xScaled.map (fun c => select c idx)
  let yTrain := select y idx
  models.map (fun m => mkRegRecord attack m.1 y (m.2 xTrain yTrain xScaled))

/-- The spec's §4.3 metric contract in its own words, for comparison with
`evaluateReg`: "MAE, RMSE, R² — all computed against the *true*
full-scenario target vector and the *full-data* predictions", the full-data
predictions being the output of the model — fitted on the scaled 80% split —
over every scaled row of the scenario, training rows included. -/
def specFullDataRecord (attack nm : String) (f : ModelAdapter)
    (x : List (List ℚ)) (y : List ℚ) (idx : List ℕ) : RegRecord :=
  let fullDataPreds :=
    f ((minMaxScale x).map (fun c => select c idx)) (select y idx)
      (minMaxScale x)
  { attack := attack, model := nm,
    mae := roundTo 6 (maeQ y fullDataPreds),
    mse := mseQ y fullDataPreds,
    r2 := roundTo 4 (r2Q y fullDataPreds) }

/-- The spec's classification contract in its own words: the confusion
matrix of a (scenario, model) pair compares the binarized full-scenario
ground truth with the binarized full-data predictions over every scaled row,
training rows included. -/
def specFullDataCm (f : ModelAdapter) (x : List (List ℚ)) (y : List ℚ)
    (idx : List ℕ) : ConfMatrix :=
  confusionMatrix (binarize y)
    (binarize (f ((minMaxScale x).map (fun c => select c idx))
      ((select (binarize y) idx).map (fun n => (n : ℚ))) (minMaxScale x)))

/-- C7: for every scenario and model, the reported metrics are computed
against the full-scenario target vector and full-data predictions (training
rows included), in both the regression and the classification pipeline:
each emitted record coincides with the spec's full-data description. -/
theorem full_data_metrics (attack : String)
    (models : List (String × ModelAdapter)) (x : List (List ℚ)) (y : List ℚ)
    (idx : List ℕ) :
    evaluateReg attack models x y idx =
        models.map (fun m => specFullDataRecord attack m.1 m.2 x y idx) ∧
      ∀ rec ∈ (evaluateCls attack models x y idx).2,
        ∃ m ∈ models, rec.model = m.1 ∧ rec.cm = specFullDataCm m.2 x y idx := by
  constructor
  · rfl
  · intro rec hrec
    unfold evaluateCls at hrec
    by_cases hguard : numClasses (binarize y) < 2
    · rw [if_pos hguard] at hrec
      simp at hrec
    · rw [if_neg hguard] at hrec
      simp only [List.mem_map] at hrec
      obtain ⟨m, hm, rfl⟩ := hrec
      exact ⟨m, hm, rfl, rfl⟩

/-! ### Summary tables (C6) -/

/-- The comparison key of
`results_df.sort_values(by=["Attack", "R2 Score"], ascending=[True, False])`:
scenario name ascending, then (rounded) R2 score descending. -/
def regOrd (a b : RegRecord) : Prop :=
  a.attack < b.attack ∨ (a.attack = b.attack ∧ b.r2 ≤ a.r2)

instance : DecidableRel regOrd := fun a b => by
  unfold regOrd; infer_instance

instance : IsTotal RegRecord regOrd :=
  ⟨fun a b => by
    unfold regOrd
    rcases lt_trichotomy a.attack b.attack with h | h | h
    · exact Or.inl (Or.inl h)
    · rcases le_total b.r2 a.r2 with h2 | h2
      · exact Or.inl (Or.inr ⟨h, h2⟩)
      · exact Or.inr (Or.inr ⟨h.symm, h2⟩)
    · exact Or.inr (Or.inl h)⟩

instance : IsTrans RegRecord regOrd :=
  ⟨fun a b c hab hbc => by
    unfold regOrd at *
    rcases hab with h1 | ⟨h1, h1r⟩ <;> rcases hbc with h2 | ⟨h2, h2r⟩
    · exact Or.inl (h1.trans h2)
    · exact Or.inl (h2 ▸ h1)
    · exact Or.inl (h1 ▸ h2)
    · exact Or.inr ⟨h1.trans h2, h2r.trans h1r⟩⟩

/-- `results_df` after line 109: the accumulated summary records sorted by
the key above (pandas' sort algorithm only matters up to ties, which the
sortedness claim does not distinguish). -/
def resultsDf (summary : List RegRecord) : List RegRecord :=
  List.insertionSort regOrd summary

/-- C6, amended: the regression table is sorted by scenario ascending then R2
descending (and is a permutation of the accumulated records).  The
classification table, by contrast, is never sorted — see the
counterexample. -/
theorem regression_table_sorted (summary : List RegRecord) :
    (resultsDf summary).Sorted regOrd ∧ List.Perm (resultsDf summary) summary :=
  ⟨List.sorted_insertionSort regOrd summary, List.perm_insertionSort regOrd summary⟩

/-- One row of `metrics_df` (F1 notebook lines 114-123). -/
structure ClsRecord where
  attack : String
  model : String
  accuracy : ℚ
  precisionVal : ℚ
  recallVal : ℚ
  f1 : ℚ
  supportMalicious : ℕ
  supportTrustworthy : ℕ
  deriving DecidableEq

/-- The metrics-loop body (lines 103-123): derive the four rounded metrics
and the two support counts from one collected confusion matrix. -/
def mkClsRecord (attack nm : String) (cm : ConfMatrix) : ClsRecord :=
  { attack := attack, model := nm,
    accuracy := roundTo 4 (accuracy cm),
    precisionVal := roundTo 4 (precision cm),
    recallVal := roundTo 4 (recallScore cm),
    f1 := roundTo 4 (f1score cm),
    supportMalicious := cm.tn + cm.fp,
    supportTrustworthy := cm.fn + cm.tp }

/-- `metrics_df = pd.DataFrame(metrics_data)` (line 125): the classification
table keeps the insertion order of `conf_data`; no sort is applied to it. -/
def metricsDf (confData : List ConfRecord) : List ClsRecord :=
  confData.map (fun c => mkClsRecord c.attack c.model c.cm)

/-- The sort key the claim asserts for the classification table: scenario
ascending, then accuracy descending. -/
def clsOrd (a b : ClsRecord) : Prop :=
  a.attack < b.attack ∨ (a.attack = b.attack ∧ b.accuracy ≤ a.accuracy)

/-- Two confusion matrices for one scenario whose accuracies arrive in
ascending order. -/
def cexConfData : List ConfRecord :=
  [{ attack := "Critical Node", model := "Random Forest",
     cm := { tn := 1, fp := 1, fn := 1, tp := 1 } },
   { attack := "Critical Node", model := "SVM",
     cm := { tn := 3, fp := 0, fn := 0, tp := 1 } }]

/-- Evaluating `roundTo` when the scaled argument is an integer. -/
theorem roundTo_ofInt (d : ℕ) (q : ℚ) (n : ℤ) (h : q * 10 ^ d = (n : ℚ)) :
    roundTo d q = (n : ℚ) / 10 ^ d := by
  rw [roundTo, h, round_intCast]

theorem cexAccuracyRF :
    (mkClsRecord "Critical Node" "Random Forest"
      (ConfMatrix.mk 1 1 1 1)).accuracy = 1/2 := by
  show roundTo 4 (accuracy (ConfMatrix.mk 1 1 1 1)) = 1/2
  have h : accuracy (ConfMatrix.mk 1 1 1 1) = 1/2 := by
    norm_num [accuracy]
  rw [h, roundTo_ofInt 4 (1/2) 5000 (by norm_num)]
  norm_num

theorem cexAccuracySVM :
    (mkClsRecord "Critical Node" "SVM"
      (ConfMatrix.mk 3 0 0 1)).accuracy = 1 := by
  show roundTo 4 (accuracy (ConfMatrix.mk 3 0 0 1)) = 1
  have h : accuracy (ConfMatrix.mk 3 0 0 1) = 1 := by
    norm_num [accuracy]
  rw [h, roundTo_ofInt 4 1 10000 (by norm_num)]
  norm_num

/-- C6 counterexample: the classification table produced from `cexConfData`
is not sorted by scenario then descending accuracy — the Random Forest row
(accuracy 0.5) precedes the SVM row (accuracy 1) within the same scenario,
because `metrics_df` is never sorted. -/
theorem cls_table_unsorted_cex :
    ¬ List.Pairwise clsOrd (metricsDf cexConfData) := by
  intro h
  have heq : metricsDf cexConfData =
      [mkClsRecord "Critical Node" "Random Forest" (ConfMatrix.mk 1 1 1 1),
       mkClsRecord "Critical Node" "SVM" (ConfMatrix.mk 3 0 0 1)] := rfl
  rw [heq] at h
  have h2 := List.rel_of_pairwise_cons h (List.mem_singleton.mpr rfl)
  unfold clsOrd at h2
  rcases h2 with h2 | ⟨-, h2⟩
  · simp only [mkClsRecord] at h2
    exact absurd h2 (lt_irrefl _)
  · rw [cexAccuracyRF, cexAccuracySVM] at h2
    norm_num at h2

/-! ### Fitting failures (C8)

Neither notebook contains a `try`/`except`: an exception raised while
fitting a model propagates out of the scenario loop and kills the run.
Exception propagation is embedded with `Except`: adapters may fail, and the
loops are sequenced monadically, so the first failure aborts everything
after it. -/

/-- A model adapter whose `fit` may raise. -/
def FallibleAdapter : Type :=
  List (List ℚ) → List ℚ → List (List ℚ) → Except String (List ℚ)

/-- Building the per-scenario predictions dict (`models = {...}` /
`preds_dict = {...}`): each model function is called in turn while the dict
literal is evaluated; an exception in any call propagates at once. -/
def scenarioPreds (xTrain : List (List ℚ)) (yTrain : List ℚ)
    (xAll : List (List ℚ)) :
    List (String × FallibleAdapter) → Except String (List (String × List ℚ))
  | [] => Except.ok []
  | m :: rest =>
      match m.2 xTrain yTrain xAll with
      | Except.error e => Except.error e
      | Except.ok p =>
          match scenarioPreds xTrain yTrain xAll rest with
          | Except.error e => Except.error e
          | Except.ok r => Except.ok ((m.1, p) :: r)

/-- One scenario of the regression pipeline with fallible fitting. -/
def evaluateRegE (attack : String) (models : List (String × FallibleAdapter))
    (x : List (List ℚ)) (y : List ℚ) (idx : List ℕ) :
    Except String (List RegRecord) :=
  match scenarioPreds ((minMaxScale x).map (fun c => select c idx))
      (select y idx) (minMaxScale x) models with
  | Except.error e => Except.error e
  | Except.ok ps => Except.ok (ps.map (fun m => mkRegRecord attack m.1 y m.2))

/-- The outer `for attack_name, path in attack_files.items()` loop: scenarios
run sequentially, records accumulate into `summary`, and an uncaught
exception anywhere aborts the run before the summary table is built. -/
def runBatchE (models : List (String × FallibleAdapter)) :
    List (String × List (List ℚ) × List ℚ × List ℕ) →
      Except String (List RegRecord)
  | [] => Except.ok []
  | s :: rest =>
      match evaluateRegE s.1 models s.2.1 s.2.2.1 s.2.2.2 with
      | Except.error e => Except.error e
      | Except.ok r =>
          match runBatchE models rest with
          | Except.error e => Except.error e
          | Except.ok rs => Except.ok (r ++ rs)

/-- An adapter whose fit raises. -/
def failAdapter : FallibleAdapter := fun _ _ _ => Except.error "fit failed"

/-- An adapter whose fit succeeds. -/
def okAdapter : FallibleAdapter := fun _ _ _ => Except.ok []

/-- The two-scenario, two-model batch refuting C8: the first model of the
first scenario fails to fit, the second model would succeed. -/
def cexBatch : List (String × List (List ℚ) × List ℚ × List ℕ) :=
  [("Critical Node", wX, wY, wIdx), ("Sybil Attack", wX, wYdeg, wIdx)]

def cexModels : List (String × FallibleAdapter) :=
  [("Random Forest", failAdapter), ("SVM", okAdapter)]

/-- C8 counterexample: with `cexModels` on `cexBatch`, the Random Forest fit
fails and the whole batch aborts with that error — the summary holds no
record at all, in particular none for the succeeding SVM pair or for the
second scenario, contradicting the claim that every other (scenario, model)
pair is still evaluated and appears in the summary. -/
theorem batch_abort_cex :
    runBatchE cexModels cexBatch = Except.error "fit failed" := rfl

/-- C8, amended: a model-fitting failure is surfaced to the caller as an
error value (distinct from any successful list of records), but it is fatal
to the whole batch, not just to its own (scenario, model) pair: whenever the
models fitted before it succeed, the batch evaluation stops at the failing
fit with its error and produces no summary records at all. -/
theorem fit_failure_aborts_batch (attack : String) (x : List (List ℚ))
    (y : List ℚ) (idx : List ℕ)
    (rest : List (String × List (List ℚ) × List ℚ × List ℕ))
    (pre post : List (String × FallibleAdapter)) (nm e : String)
    (f : FallibleAdapter)
    (hpre : ∀ m ∈ pre, ∃ ps,
      m.2 ((minMaxScale x).map (fun c => select c idx)) (select y idx)
        (minMaxScale x) = Except.ok ps)
    (hf : f ((minMaxScale x).map (fun c => select c idx)) (select y idx)
        (minMaxScale x) = Except.error e) :
    runBatchE (pre ++ (nm, f) :: post) ((attack, x, y, idx) :: rest) =
      Except.error e := by
  have hscenario : scenarioPreds
      ((minMaxScale x).map (fun c => select c idx)) (select y idx)
      (minMaxScale x) (pre ++ (nm, f) :: post) = Except.error e := by
    induction pre with
    | nil =>
        rw [List.nil_append]
        unfold scenarioPreds
        dsimp only
        rw [hf]
    | cons m ms ih =>
        obtain ⟨ps, hps⟩ := hpre m (List.mem_cons_self m ms)
        have ih2 := ih (fun m2 hm2 => hpre m2 (List.mem_cons_of_mem m hm2))
        rw [List.cons_append]
        unfold scenarioPreds
        rw [hps, ih2]
  show (match evaluateRegE attack (pre ++ (nm, f) :: post) x y idx with
    | Except.error e2 => Except.error e2
    | Except.ok r =>
        match runBatchE (pre ++ (nm, f) :: post) rest with
        | Except.error e2 => Except.error e2
        | Except.ok rs => Except.ok (r ++ rs)) = Except.error e
  unfold evaluateRegE
  rw [hscenario]

/-- `fit_failure_aborts_batch` applied at a concrete batch: the SVM fit
succeeds, the CNN fit fails, and the batch aborts with the CNN error. -/
theorem fit_failure_aborts_batch_witness :
    (okAdapter ((minMaxScale wX).map (fun c => select c wIdx))
        (select wY wIdx) (minMaxScale wX) = Except.ok [] ∧
      failAdapter ((minMaxScale wX).map (fun c => select c wIdx))
        (select wY wIdx) (minMaxScale wX) = Except.error "fit failed") ∧
      runBatchE [("SVM", okAdapter), ("CNN", failAdapter)]
        [("Data Manipulation", wX, wY, wIdx)] = Except.error "fit failed" :=
  ⟨⟨rfl, rfl⟩,
    fit_failure_aborts_batch "Data Manipulation" wX wY wIdx []
      [("SVM", okAdapter)] [] "CNN" "fit failed" failAdapter
      (fun m hm => ⟨[], by
        have hw : m = ("SVM", okAdapter) := by simpa using hm
        rw [hw]
        rfl⟩)
      rfl⟩

/-! ### The Feature Deriver on whole tables (C9)

`preprocess` (R2 notebook lines 34-48; the identical inline block of the
other two notebooks) operates on a whole DataFrame by columnwise
assignment.  A DataFrame is embedded column-major: an ordered association
list from column name to the column's values; rows are the index-aligned
positions within each column. -/

abbrev Df : Type := List (String × List ℚ)

/-- `c in df.columns`. -/
def dfHas (df : Df) (c : String) : Bool := df.any (fun p => p.1 == c)

/-- `df[c]`: the first column named `c` (the empty column when absent;
absence is excluded by every hypothesis below, matching the KeyError pandas
would raise). -/
def dfGet (df : Df) (c : String) : List ℚ :=
  ((df.find? (fun p => p.1 == c)).map Prod.snd).getD []

/-- `df[c] = v`: overwrite the column in place when the name exists,
otherwise append it as the rightmost column — pandas' column-assignment
semantics. -/
def dfAssign (df : Df) (c : String) (v : List ℚ) : Df :=
  if dfHas df c then df.map (fun p => if p.1 == c then (c, v) else p)
  else df ++ [(c, v)]

/-- Columnwise addition of two aligned series. -/
def colAdd (a b : List ℚ) : List ℚ := List.zipWith (fun u v => u + v) a b

/-- Columnwise product of two aligned series. -/
def colMul (a b : List ℚ) : List ℚ := List.zipWith (fun u v => u * v) a b

/-- The vectorized Trust Score expression, columnwise. -/
def trustCombine (lat pl sf bln sic cc ec : List ℚ) : List ℚ :=
  colAdd (lat.map (fun v => 0.2 * (1 - v)))
    (colAdd (pl.map (fun v => 0.1 * (1 - v)))
      (colAdd (sf.map (fun v => 0.2 * v))
        (colAdd (bln.map (fun v => 0.1 * v))
          (colAdd (sic.map (fun v => 0.2 * v))
            (colAdd (cc.map (fun v => 0.1 * v))
              (ec.map (fun v => 0.1 * v)))))))

/-- `df["Battery Level Norm"] = df["Battery Level"] / 100` (line 35). -/
def step1 (df : Df) : Df :=
  dfAssign df "Battery Level Norm"
    ((dfGet df "Battery Level").map (fun v => v / 100))

/-- `df["Scale-Intensity Centrality"] = df["Communication Intensity"] *
df["Communication Scale"]` (line 36). -/
def step2 (df : Df) : Df :=
  dfAssign df "Scale-Intensity Centrality"
    (colMul (dfGet df "Communication Intensity")
      (dfGet df "Communication Scale"))

/-- `df["Trust Score"] = ...` (lines 37-45). -/
def step3 (df : Df) : Df :=
  dfAssign df "Trust Score"
    (trustCombine (dfGet df "Latency") (dfGet df "Packet Loss")
      (dfGet df "Sensor Functionality") (dfGet df "Battery Level Norm")
      (dfGet df "Scale-Intensity Centrality")
      (dfGet df "Closeness Centrality") (dfGet df "Eigenvector Centrality"))

/-- The Feature Deriver: the three column assignments of `preprocess`, in
source order, each reading the frame left by the previous one. -/
def preprocessDf (df : Df) : Df := step3 (step2 (step1 df))

/-- The three columns `preprocess` writes. -/
def derivedNames : List String :=
  ["Battery Level Norm", "Scale-Intensity Centrality", "Trust Score"]

/-- Overwriting a column in place keeps every column name. -/
theorem keys_map_overwrite (df : Df) (c : String) (v : List ℚ) :
    (df.map (fun p => if p.1 == c then (c, v) else p)).map Prod.fst =
      df.map Prod.fst := by
  induction df with
  | nil => rfl
  | cons p t ih =>
      simp only [List.map_cons]
      refine congrArg₂ List.cons ?_ ih
      by_cases hb : (p.1 == c) = true
      · rw [if_pos hb]
        exact (eq_of_beq hb).symm
      · rw [if_neg hb]

/-- Looking up a name other than the overwritten one finds the original
entry. -/
theorem find?_map_overwrite_ne (df : Df) (c c2 : String) (v : List ℚ)
    (h : (c2 == c) = false) :
    (df.map (fun p => if p.1 == c then (c, v) else p)).find?
        (fun p => p.1 == c2) =
      df.find? (fun p => p.1 == c2) := by
  have hne : c2 ≠ c := ne_of_beq_false h
  induction df with
  | nil => rfl
  | cons p t ih =>
      simp only [List.map_cons]
      by_cases hb : (p.1 == c) = true
      · have hpc : p.1 = c := eq_of_beq hb
        have h1 : ¬ ((c, v).1 == c2) = true := by
          simp only [beq_iff_eq]
          exact fun hcon => hne hcon.symm
        have h2 : ¬ (p.1 == c2) = true := by
          simp only [beq_iff_eq, hpc]
          exact fun hcon => hne hcon.symm
        rw [if_pos hb,
          List.find?_cons_of_neg (p := fun q : String × List ℚ => q.1 == c2) _ h1,
          List.find?_cons_of_neg (p := fun q : String × List ℚ => q.1 == c2) _ h2, ih]
      · rw [if_neg hb]
        by_cases h2 : (p.1 == c2) = true
        · rw [List.find?_cons_of_pos (p := fun q : String × List ℚ => q.1 == c2) _ h2,
            List.find?_cons_of_pos (p := fun q : String × List ℚ => q.1 == c2) _ h2]
        · rw [List.find?_cons_of_neg (p := fun q : String × List ℚ => q.1 == c2) _ h2,
            List.find?_cons_of_neg (p := fun q : String × List ℚ => q.1 == c2) _ h2, ih]

/-- Reading any column other than the assigned one is unchanged by an
assignment. -/
theorem dfGet_assign_ne (df : Df) (c c2 : String) (v : List ℚ)
    (h : (c2 == c) = false) :
    dfGet (dfAssign df c v) c2 = dfGet df c2 := by
  have hne : c2 ≠ c := ne_of_beq_false h
  unfold dfAssign
  by_cases hhas : dfHas df c = true
  · rw [if_pos hhas]
    unfold dfGet
    rw [find?_map_overwrite_ne df c c2 v h]
  · rw [if_neg hhas]
    unfold dfGet
    rw [List.find?_append]
    have htail : List.find? (fun p => p.1 == c2) [(c, v)] = none := by
      simp only [List.find?_cons, List.find?_nil]
      have : ((c, v).1 == c2) = false := beq_eq_false_iff_ne.mpr (Ne.symm hne)
      rw [this]
    rw [htail]
    cases List.find? (fun p => p.1 == c2) df <;> rfl

/-- Reading the assigned column after assignment gives the assigned
values. -/
theorem dfGet_assign_same (df : Df) (c : String) (v : List ℚ) :
    dfGet (dfAssign df c v) c = v := by
  unfold dfAssign
  by_cases h : dfHas df c = true
  · rw [if_pos h]
    induction df with
    | nil => cases h
    | cons p t ih =>
        simp only [List.map_cons]
        by_cases hb : (p.1 == c) = true
        · rw [if_pos hb]
          unfold dfGet
          rw [List.find?_cons_of_pos (p := fun q : String × List ℚ => q.1 == c) _
            (by simp : ((c, v).1 == c) = true)]
          rfl
        · have hbf : (p.1 == c) = false := by
            cases hq : p.1 == c with
            | false => rfl
            | true => exact absurd hq hb
          have ht : dfHas t c = true := by
            unfold dfHas at h
            simp only [List.any_cons, hbf, Bool.false_or] at h
            exact h
          rw [if_neg hb]
          unfold dfGet
          rw [List.find?_cons_of_neg (p := fun q : String × List ℚ => q.1 == c) _ hb]
          exact ih ht
  · rw [if_neg h]
    unfold dfGet
    rw [List.find?_append]
    have hmain : List.find? (fun p => p.1 == c) df = none := by
      rw [List.find?_eq_none]
      intro p hp hcon
      exact h (by unfold dfHas; exact List.any_of_mem hp hcon)
    rw [hmain]
    simp only [Option.none_or]
    rw [List.find?_cons_of_pos (p := fun q : String × List ℚ => q.1 == c) _
      (by simp : ((c, v).1 == c) = true)]
    rfl

/-- A column present before an assignment is present after it. -/
theorem dfHas_assign (df : Df) (c : String) (v : List ℚ) (c2 : String)
    (h : dfHas df c2 = true) : dfHas (dfAssign df c v) c2 = true := by
  unfold dfAssign
  by_cases hc : dfHas df c = true
  · rw [if_pos hc]
    unfold dfHas at h ⊢
    obtain ⟨x, hx, hxc⟩ := List.any_eq_true.mp h
    apply List.any_eq_true.mpr
    by_cases hb : (x.1 == c) = true
    · refine ⟨(c, v), List.mem_map.mpr ⟨x, hx, by rw [if_pos hb]⟩, ?_⟩
      have h1 : x.1 = c := eq_of_beq hb
      simpa [← h1] using hxc
    · exact ⟨x, List.mem_map.mpr ⟨x, hx, by rw [if_neg hb]⟩, hxc⟩
  · rw [if_neg hc]
    unfold dfHas at h ⊢
    obtain ⟨x, hx, hxc⟩ := List.any_eq_true.mp h
    exact List.any_eq_true.mpr ⟨x, List.mem_append_left _ hx, hxc⟩

/-- The assigned column is present after an assignment. -/
theorem dfHas_assign_self (df : Df) (c : String) (v : List ℚ) :
    dfHas (dfAssign df c v) c = true := by
  unfold dfAssign
  by_cases hc : dfHas df c = true
  · rw [if_pos hc]
    unfold dfHas at hc ⊢
    obtain ⟨x, hx, hxc⟩ := List.any_eq_true.mp hc
    exact List.any_eq_true.mpr
      ⟨(c, v), List.mem_map.mpr ⟨x, hx, by rw [if_pos hxc]⟩, by simp⟩
  · rw [if_neg hc]
    unfold dfHas
    exact List.any_eq_true.mpr
      ⟨(c, v), List.mem_append_right _ (List.mem_singleton.mpr rfl), by simp⟩

/-- Assignment of a column of the common length preserves uniform column
length (no row is created or dropped). -/
theorem dfAssign_wf (df : Df) (c : String) (v : List ℚ) (n : ℕ)
    (hwf : ∀ p ∈ df, p.2.length = n) (hv : v.length = n) :
    ∀ p ∈ dfAssign df c v, p.2.length = n := by
  intro p hp
  unfold dfAssign at hp
  by_cases h : dfHas df c = true
  · rw [if_pos h] at hp
    obtain ⟨q, hq, rfl⟩ := List.mem_map.mp hp
    by_cases hb : (q.1 == c) = true
    · rw [if_pos hb]
      exact hv
    · rw [if_neg hb]
      exact hwf q hq
  · rw [if_neg h] at hp
    rcases List.mem_append.mp hp with hmem | hmem
    · exact hwf p hmem
    · rw [List.mem_singleton.mp hmem]
      exact hv

/-- A present column of a uniform-length frame has the common length. -/
theorem dfGet_len (df : Df) (c : String) (n : ℕ) (h : dfHas df c = true)
    (hwf : ∀ p ∈ df, p.2.length = n) : (dfGet df c).length = n := by
  have hsome : (df.find? (fun p => p.1 == c)).isSome := by
    rw [List.find?_isSome]
    unfold dfHas at h
    obtain ⟨x, hx, hxc⟩ := List.any_eq_true.mp h
    exact ⟨x, hx, hxc⟩
  obtain ⟨r, hr⟩ := Option.isSome_iff_exists.mp hsome
  unfold dfGet
  rw [hr]
  exact hwf r (List.mem_of_find?_eq_some hr)

/-- Assignment appends exactly the new name when the column is absent and no
name when it is present. -/
theorem dfAssign_keys_ext (df : Df) (c : String) (v : List ℚ) :
    ∃ ext, (dfAssign df c v).map Prod.fst = df.map Prod.fst ++ ext ∧
      ∀ c2 ∈ ext, c2 = c := by
  unfold dfAssign
  by_cases h : dfHas df c = true
  · rw [if_pos h]
    exact ⟨[], by rw [keys_map_overwrite, List.append_nil], by simp⟩
  · rw [if_neg h]
    exact ⟨[c], by rw [List.map_append]; rfl, by simp⟩

theorem colAdd_length (a b : List ℚ) :
    (colAdd a b).length = min a.length b.length := by
  simp [colAdd]

theorem colMul_length (a b : List ℚ) :
    (colMul a b).length = min a.length b.length := by
  simp [colMul]

theorem trustCombine_length (lat pl sf bln sic cc ec : List ℚ) (n : ℕ)
    (h1 : lat.length = n) (h2 : pl.length = n) (h3 : sf.length = n)
    (h4 : bln.length = n) (h5 : sic.length = n) (h6 : cc.length = n)
    (h7 : ec.length = n) :
    (trustCombine lat pl sf bln sic cc ec).length = n := by
  simp [trustCombine, colAdd, h1, h2, h3, h4, h5, h6, h7]

/-- C9, amended: on every table that contains the eight raw columns the
Feature Deriver reads, with all columns of one common length (a fixed row
count), `preprocess` (i) leaves every column other than the three derived
ones unchanged, (ii) keeps every column at the common length — no row is
dropped, added or reordered — and (iii) keeps the original column order,
appending at most the derived names on the right (a derived name already
present is overwritten in place instead — which is why "every pre-existing
column is unchanged" fails as stated; see the counterexample). -/
theorem preprocess_frame (df : Df) (n : ℕ)
    (hwf : ∀ p ∈ df, p.2.length = n)
    (hBL : dfHas df "Battery Level" = true)
    (hCI : dfHas df "Communication Intensity" = true)
    (hCS : dfHas df "Communication Scale" = true)
    (hLat : dfHas df "Latency" = true)
    (hPL : dfHas df "Packet Loss" = true)
    (hSF : dfHas df "Sensor Functionality" = true)
    (hCC : dfHas df "Closeness Centrality" = true)
    (hEC : dfHas df "Eigenvector Centrality" = true) :
    (∀ c, c ∉ derivedNames → dfGet (preprocessDf df) c = dfGet df c) ∧
      (∀ p ∈ preprocessDf df, p.2.length = n) ∧
      (∃ ext, (preprocessDf df).map Prod.fst = df.map Prod.fst ++ ext ∧
        ∀ c ∈ ext, c ∈ derivedNames) := by
  have hwf1 : ∀ p ∈ step1 df, p.2.length = n := by
    apply dfAssign_wf df _ _ n hwf
    rw [List.length_map]
    exact dfGet_len df _ n hBL hwf
  have hCI1 : dfHas (step1 df) "Communication Intensity" = true :=
    dfHas_assign df _ _ _ hCI
  have hCS1 : dfHas (step1 df) "Communication Scale" = true :=
    dfHas_assign df _ _ _ hCS
  have hwf2 : ∀ p ∈ step2 (step1 df), p.2.length = n := by
    apply dfAssign_wf (step1 df) _ _ n hwf1
    rw [colMul_length, dfGet_len (step1 df) _ n hCI1 hwf1,
      dfGet_len (step1 df) _ n hCS1 hwf1]
    exact min_self n
  have hLat2 : dfHas (step2 (step1 df)) "Latency" = true :=
    dfHas_assign _ _ _ _ (dfHas_assign df _ _ _ hLat)
  have hPL2 : dfHas (step2 (step1 df)) "Packet Loss" = true :=
    dfHas_assign _ _ _ _ (dfHas_assign df _ _ _ hPL)
  have hSF2 : dfHas (step2 (step1 df)) "Sensor Functionality" = true :=
    dfHas_assign _ _ _ _ (dfHas_assign df _ _ _ hSF)
  have hCC2 : dfHas (step2 (step1 df)) "Closeness Centrality" = true :=
    dfHas_assign _ _ _ _ (dfHas_assign df _ _ _ hCC)
  have hEC2 : dfHas (step2 (step1 df)) "Eigenvector Centrality" = true :=
    dfHas_assign _ _ _ _ (dfHas_assign df _ _ _ hEC)
  have hBLN2 : dfHas (step2 (step1 df)) "Battery Level Norm" = true :=
    dfHas_assign _ _ _ _ (dfHas_assign_self df _ _)
  have hSIC2 : dfHas (step2 (step1 df)) "Scale-Intensity Centrality" = true :=
    dfHas_assign_self _ _ _
  refine ⟨?_, ?_, ?_⟩
  · intro c hc
    have hc1 : (c == "Battery Level Norm") = false :=
      beq_eq_false_iff_ne.mpr (fun he => hc (by rw [he]; decide))
    have hc2 : (c == "Scale-Intensity Centrality") = false :=
      beq_eq_false_iff_ne.mpr (fun he => hc (by rw [he]; decide))
    have hc3 : (c == "Trust Score") = false :=
      beq_eq_false_iff_ne.mpr (fun he => hc (by rw [he]; decide))
    show dfGet (step3 (step2 (step1 df))) c = dfGet df c
    unfold step3 step2 step1
    rw [dfGet_assign_ne _ _ _ _ hc3, dfGet_assign_ne _ _ _ _ hc2,
      dfGet_assign_ne _ _ _ _ hc1]
  · show ∀ p ∈ step3 (step2 (step1 df)), p.2.length = n
    apply dfAssign_wf (step2 (step1 df)) _ _ n hwf2
    exact trustCombine_length _ _ _ _ _ _ _ n
      (dfGet_len _ _ n hLat2 hwf2) (dfGet_len _ _ n hPL2 hwf2)
      (dfGet_len _ _ n hSF2 hwf2) (dfGet_len _ _ n hBLN2 hwf2)
      (dfGet_len _ _ n hSIC2 hwf2) (dfGet_len _ _ n hCC2 hwf2)
      (dfGet_len _ _ n hEC2 hwf2)
  · obtain ⟨e1, he1, hm1⟩ := dfAssign_keys_ext df "Battery Level Norm"
      ((dfGet df "Battery Level").map (fun v => v / 100))
    obtain ⟨e2, he2, hm2⟩ := dfAssign_keys_ext (step1 df)
      "Scale-Intensity Centrality"
      (colMul (dfGet (step1 df) "Communication Intensity")
        (dfGet (step1 df) "Communication Scale"))
    obtain ⟨e3, he3, hm3⟩ := dfAssign_keys_ext (step2 (step1 df)) "Trust Score"
      (trustCombine (dfGet (step2 (step1 df)) "Latency")
        (dfGet (step2 (step1 df)) "Packet Loss")
        (dfGet (step2 (step1 df)) "Sensor Functionality")
        (dfGet (step2 (step1 df)) "Battery Level Norm")
        (dfGet (step2 (step1 df)) "Scale-Intensity Centrality")
        (dfGet (step2 (step1 df)) "Closeness Centrality")
        (dfGet (step2 (step1 df)) "Eigenvector Centrality"))
    refine ⟨e1 ++ e2 ++ e3, ?_, ?_⟩
    · calc (preprocessDf df).map Prod.fst
          = (step2 (step1 df)).map Prod.fst ++ e3 := he3
        _ = ((step1 df).map Prod.fst ++ e2) ++ e3 := by
            rw [show (step2 (step1 df)).map Prod.fst =
              (step1 df).map Prod.fst ++ e2 from he2]
        _ = ((df.map Prod.fst ++ e1) ++ e2) ++ e3 := by
            rw [show (step1 df).map Prod.fst = df.map Prod.fst ++ e1 from he1]
        _ = df.map Prod.fst ++ (e1 ++ e2 ++ e3) := by
            simp [List.append_assoc]
    · intro c hcmem
      rcases List.mem_append.mp hcmem with hcc | hcc
      · rcases List.mem_append.mp hcc with hcc2 | hcc2
        · rw [hm1 c hcc2]; decide
        · rw [hm2 c hcc2]; decide
      · rw [hm3 c hcc]; decide

/-- A table that already holds a `Trust Score` column next to the raw
fields. -/
def dfTS : Df :=
  [("Battery Level", [50]), ("Communication Intensity", [1]),
   ("Communication Scale", [1]), ("Latency", [0]), ("Packet Loss", [0]),
   ("Sensor Functionality", [1]), ("Closeness Centrality", [1]),
   ("Eigenvector Centrality", [1]), ("Trust Score", [5])]

/-- C9 counterexample: on `dfTS` — a table containing every required raw
column plus a pre-existing `Trust Score` column — the Feature Deriver
overwrites that pre-existing column (its value changes from 5 to 0.95), so
"every pre-existing column's values are unchanged" is false as stated. -/
theorem preprocess_overwrites_cex :
    dfGet (preprocessDf dfTS) "Trust Score" ≠ dfGet dfTS "Trust Score" := by
  have hout : dfGet (preprocessDf dfTS) "Trust Score" =
      trustCombine (dfGet (step2 (step1 dfTS)) "Latency")
        (dfGet (step2 (step1 dfTS)) "Packet Loss")
        (dfGet (step2 (step1 dfTS)) "Sensor Functionality")
        (dfGet (step2 (step1 dfTS)) "Battery Level Norm")
        (dfGet (step2 (step1 dfTS)) "Scale-Intensity Centrality")
        (dfGet (step2 (step1 dfTS)) "Closeness Centrality")
        (dfGet (step2 (step1 dfTS)) "Eigenvector Centrality") := by
    show dfGet (step3 (step2 (step1 dfTS))) "Trust Score" = _
    unfold step3
    exact dfGet_assign_same _ _ _
  have hbln : dfGet (step2 (step1 dfTS)) "Battery Level Norm" =
      (dfGet dfTS "Battery Level").map (fun v => v / 100) := by
    unfold step2 step1
    rw [dfGet_assign_ne _ _ _ _ (by decide), dfGet_assign_same]
  have hsic : dfGet (step2 (step1 dfTS)) "Scale-Intensity Centrality" =
      colMul (dfGet dfTS "Communication Intensity")
        (dfGet dfTS "Communication Scale") := by
    unfold step2 step1
    rw [dfGet_assign_same, dfGet_assign_ne _ _ _ _ (by decide),
      dfGet_assign_ne _ _ _ _ (by decide)]
  have hlat : dfGet (step2 (step1 dfTS)) "Latency" = dfGet dfTS "Latency" := by
    unfold step2 step1
    rw [dfGet_assign_ne _ _ _ _ (by decide), dfGet_assign_ne _ _ _ _ (by decide)]
  have hpl : dfGet (step2 (step1 dfTS)) "Packet Loss" =
      dfGet dfTS "Packet Loss" := by
    unfold step2 step1
    rw [dfGet_assign_ne _ _ _ _ (by decide), dfGet_assign_ne _ _ _ _ (by decide)]
  have hsf : dfGet (step2 (step1 dfTS)) "Sensor Functionality" =
      dfGet dfTS "Sensor Functionality" := by
    unfold step2 step1
    rw [dfGet_assign_ne _ _ _ _ (by decide), dfGet_assign_ne _ _ _ _ (by decide)]
  have hcc : dfGet (step2 (step1 dfTS)) "Closeness Centrality" =
      dfGet dfTS "Closeness Centrality" := by
    unfold step2 step1
    rw [dfGet_assign_ne _ _ _ _ (by decide), dfGet_assign_ne _ _ _ _ (by decide)]
  have hec : dfGet (step2 (step1 dfTS)) "Eigenvector Centrality" =
      dfGet dfTS "Eigenvector Centrality" := by
    unfold step2 step1
    rw [dfGet_assign_ne _ _ _ _ (by decide), dfGet_assign_ne _ _ _ _ (by decide)]
  rw [hout, hbln, hsic, hlat, hpl, hsf, hcc, hec]
  rw [show dfGet dfTS "Latency" = [0] from rfl,
    show dfGet dfTS "Packet Loss" = [0] from rfl,
    show dfGet dfTS "Sensor Functionality" = [1] from rfl,
    show dfGet dfTS "Battery Level" = [50] from rfl,
    show dfGet dfTS "Communication Intensity" = [1] from rfl,
    show dfGet dfTS "Communication Scale" = [1] from rfl,
    show dfGet dfTS "Closeness Centrality" = [1] from rfl,
    show dfGet dfTS "Eigenvector Centrality" = [1] from rfl,
    show dfGet dfTS "Trust Score" = [5] from rfl]
  intro hcon
  rw [List.ext_get_iff] at hcon
  have h0 := hcon.2 0 (by norm_num [trustCombine, colAdd, colMul]) (by norm_num)
  norm_num [trustCombine, colAdd, colMul] at h0

/-- A table with the eight raw columns and one extra raw column, one row
each. -/
def dfW : Df :=
  [("Battery Level", [50]), ("Communication Intensity", [1]),
   ("Communication Scale", [1]), ("Latency", [0]), ("Packet Loss", [0]),
   ("Sensor Functionality", [1]), ("Closeness Centrality", [1]),
   ("Eigenvector Centrality", [1]), ("Iteration", [7])]

theorem preprocess_frame_witness :
    (dfHas dfW "Battery Level" = true ∧
        dfW.all (fun p => p.2.length == 1) = true ∧
        "Iteration" ∉ derivedNames) ∧
      dfGet (preprocessDf dfW) "Iteration" = dfGet dfW "Iteration" :=
  ⟨⟨rfl, rfl, by decide⟩,
    (preprocess_frame dfW 1 (by decide) rfl rfl rfl rfl rfl rfl rfl rfl).1
      "Iteration" (by decide)⟩

end AIRism
